import Mathlib

/-!
Verification development for `yt_insight_generator.py`, a CLI tool that turns
a YouTube video transcript into a Markdown blog post via a chat-completion API.

The Python source is shallowly embedded below:
* pure library behaviour the script relies on (`str.split`, `str.strip`,
  `str.join`, `urllib.parse.urlparse`/`parse_qs`) is modelled as executable
  functions over `String` / `List Char`;
* filesystem and network effects are modelled by explicit inputs
  (config-file contents, environment variable, transcript fetch results,
  streamed chunks) and an explicit trace of network events emitted by `mainRun`.
-/

set_option maxRecDepth 100000

namespace YtInsight

/-! ## Python string primitives used by the script -/

/-- ASCII whitespace recognised by Python `str.strip()` (the config token file
holds an ASCII API key, so the ASCII subset of Python's Unicode whitespace is
the relevant one). -/
def pyWhitespace (c : Char) : Bool :=
  c = ' ' || c = '\t' || c = '\n' || c = '\x0b' || c = '\x0c' || c = '\r'

/-- Python `s.strip()`: drop leading and trailing whitespace characters. -/
def pyStrip (s : String) : String :=
  String.mk (((s.toList.dropWhile pyWhitespace).reverse.dropWhile pyWhitespace).reverse)

/-- Python `sep.join(xs)` for a list of strings. -/
def pyJoinStr (sep : String) : List String → String
  | [] => ""
  | x :: rest => rest.foldl (fun acc y => acc ++ sep ++ y) x

/-- Python `s.split(sep)` (single-character separator, no maxsplit),
on the character list of the string. -/
def pySplit (sep : Char) : List Char → List (List Char)
  | [] => [[]]
  | c :: rest =>
    if c = sep then [] :: pySplit sep rest
    else
      match pySplit sep rest with
      | [] => [[c]]
      | h :: t => (c :: h) :: t

/-- Python `s.split(sep, 1)`: `none` when the separator does not occur,
otherwise the parts before and after its first occurrence. -/
def splitOnce (sep : Char) : List Char → Option (List Char × List Char)
  | [] => none
  | c :: rest =>
    if c = sep then some ([], rest)
    else
      match splitOnce sep rest with
      | none => none
      | some (a, b) => some (c :: a, b)

/-! ## `urllib.parse` model: `urlparse(url).query` and `parse_qs` -/

def isHexDigitB (c : Char) : Bool :=
  ('0' ≤ c && c ≤ '9') || ('a' ≤ c && c ≤ 'f') || ('A' ≤ c && c ≤ 'F')

def hexDigitVal (c : Char) : Nat :=
  if '0' ≤ c && c ≤ '9' then c.toNat - '0'.toNat
  else if 'a' ≤ c && c ≤ 'f' then c.toNat - 'a'.toNat + 10
  else c.toNat - 'A'.toNat + 10

/-- Percent-decoding as in `urllib.parse.unquote`: a `%` followed by two hex
digits becomes the denoted byte, anything else is copied verbatim.  (Decoded
bytes are mapped directly to code points, which is exact for the ASCII data
handled here; multi-byte UTF-8 re-assembly is not modelled.) -/
def pyUnquote : List Char → List Char
  | [] => []
  | '%' :: a :: b :: rest =>
    if isHexDigitB a && isHexDigitB b then
      Char.ofNat (16 * hexDigitVal a + hexDigitVal b) :: pyUnquote rest
    else '%' :: pyUnquote (a :: b :: rest)
  | c :: rest => c :: pyUnquote rest

/-- Decoding in the style of `unquote_plus`, used by `parse_qsl` on names and values:
`+` becomes a space, then percent-sequences are decoded. -/
def pyUnquotePlus (s : List Char) : List Char :=
  pyUnquote (s.map fun c => if c = '+' then ' ' else c)

/-- One `name=value` field of a query string, as `parse_qsl` treats it with
the default options (`keep_blank_values=False`): an empty field or a field
without `=` is dropped, a field whose value part is empty is dropped,
otherwise name and value are `unquote_plus`-decoded. -/
def fieldToPair (f : List Char) : Option (List Char × List Char) :=
  match splitOnce '=' f with
  | none => none
  | some (n, v) => if v = [] then none else some (pyUnquotePlus n, pyUnquotePlus v)

/-- Model of `urllib.parse.parse_qsl(qs)` with default options: split on `&`,
keep the decoded `name=value` pairs in order. -/
def parseQsl (qs : List Char) : List (List Char × List Char) :=
  (pySplit '&' qs).filterMap fieldToPair

/-- The `query` component of `urlparse(url)`: strip a fragment (everything
from the first `#`), then take everything after the first `?` of what is
left; empty when there is no `?`. -/
def urlQueryChars (url : List Char) : List Char :=
  let noFrag := match splitOnce '#' url with
    | none => url
    | some (a, _) => a
  match splitOnce '?' noFrag with
  | none => []
  | some (_, q) => q

/-! ## The script's own functions -/

/-- Credential resolution via the `CONF_FILE` config file and the environment.

`get_conf_file_contents` returns `None` when `~/.config/openai.token` does not
exist and the stripped file contents otherwise; here the optional file
contents are an explicit argument.  `get_api_key` falls back to the
`OPENAI_API_KEY` environment variable and raises
`KnownError("Missing OpenAI key.")` when both are absent. -/
def getApiKey (confFile envKey : Option String) : Except String String :=
  let fromConf := confFile.map pyStrip
  let apiKey := match fromConf with
    | none => envKey
    | some k => some k
  match apiKey with
  | none => Except.error "Missing OpenAI key."
  | some k => Except.ok k

/-- Selector for the `v` key of the parsed query string:
`parse_qs(...)` groups values by name, and `.get('v')` yields exactly the
values whose name is `v`, in order (or `None` when there are none). -/
def vFieldValue (p : List Char × List Char) : Option (List Char) :=
  if p.1 = ['v'] then some p.2 else none

/-- Model of `get_video_id`: parse the URL's query string, look up the `v` parameter,
raise `KnownError` when it is absent, and return its first value otherwise. -/
def getVideoId (url : String) : Except String String :=
  match (parseQsl (urlQueryChars url.toList)).filterMap vFieldValue with
  | [] => Except.error "Missing `v` querystring variable in YouTube video URL."
  | ids :: _ => Except.ok (String.mk ids)

/-- The constant tag appended to every post (`AI_TAG = "ai-generated"`). -/
def AI_TAG : String := "ai-generated"

/-- The tags value handed to the template at line 167 of the script:
`", ".join(args.tags + [AI_TAG])`. -/
def renderedTags (tags : List String) : String :=
  pyJoinStr ", " (tags ++ [AI_TAG])

/-- One caption record of `YouTubeTranscriptApi.get_transcript`; the script
only reads its `text` field (`t["text"]`). -/
structure Caption where
  text : String
deriving Repr, DecidableEq

/-- The transcript string built at lines 149-154:
`"\n".join([t["text"] for t in get_transcript(video_id)])`. -/
def transcriptOf (captions : List Caption) : String :=
  pyJoinStr "\n" (captions.map Caption.text)

/-- Rendering of the fixed `TEMPLATE` constant by Jinja2 with
`trim_blocks=True, lstrip_blocks=True` (as configured by
`get_message_template`): variable tags are substituted, the newline directly
after each `{% %}` block tag is trimmed, and the `category` / `words`
conditional blocks emit their line exactly when the value is truthy
(a non-`None`, non-empty string). -/
def renderTemplate (transcript date author : String) (category : Option String)
    (tags language videoId : String) (words : Option String) : String :=
  "\nThe following text is a transcript from a YouTube video. Write a post in\nMarkdown giving an insight about the content of the video:\n```\n"
  ++ transcript
  ++ "\n```\nNotes:\n- Avoid generating text about any sponsorships.\n- The generated Markdown should be in 80 columns.\n- Prepend the generated Markdown with the following directive (include the\n  three dashes):\n---\nblogpost: true\ndate: "
  ++ date
  ++ "\nauthor: "
  ++ author
  ++ "\n"
  ++ (match category with
      | none => ""
      | some c => if c = "" then "" else "category: " ++ c ++ "\n")
  ++ "tags: "
  ++ tags
  ++ "\n---\n- Insert somewhere in the generated Markdown text the video ID `"
  ++ videoId
  ++ "`\n  with the following format (Include the three backticks before and after the\n  youtube directive):\n```\x7byoutube\x7d the_video_id\n```\n- Generate the content in "
  ++ language
  ++ ".\n- Include several sections.\n"
  ++ (match words with
      | none => ""
      | some w => if w = "" then "" else "- Use at least " ++ w ++ " words.\n")

/-- Everything of the rendered template strictly before the optional
`category:` line. -/
def tplBeforeCategory (transcript date author : String) : String :=
  "\nThe following text is a transcript from a YouTube video. Write a post in\nMarkdown giving an insight about the content of the video:\n```\n"
  ++ transcript
  ++ "\n```\nNotes:\n- Avoid generating text about any sponsorships.\n- The generated Markdown should be in 80 columns.\n- Prepend the generated Markdown with the following directive (include the\n  three dashes):\n---\nblogpost: true\ndate: "
  ++ date
  ++ "\nauthor: "
  ++ author
  ++ "\n"

/-- Everything of the rendered template strictly after the optional
`category:` line. -/
def tplAfterCategory (tags language videoId : String) (words : Option String) : String :=
  "tags: "
  ++ tags
  ++ "\n---\n- Insert somewhere in the generated Markdown text the video ID `"
  ++ videoId
  ++ "`\n  with the following format (Include the three backticks before and after the\n  youtube directive):\n```\x7byoutube\x7d the_video_id\n```\n- Generate the content in "
  ++ language
  ++ ".\n- Include several sections.\n"
  ++ (match words with
      | none => ""
      | some w => if w = "" then "" else "- Use at least " ++ w ++ " words.\n")

/-- The parsed command line (`argparse` namespace) of `get_args`:
`-s`, `-d`, `-a` are required strings, `-l` defaults to `"English"`,
`-c` and `-w` are optional strings, `-t` takes one or more strings and is
optional (no `required=True`), defaulting to `None`. -/
structure Args where
  source : String
  destination : String
  language : String
  author : String
  category : Option String
  words : Option String
  tags : Option (List String)
deriving Repr, DecidableEq

/-- Model of `get_args`: each parameter is the flag's value when supplied on the
command line and `none` when omitted.  `argparse` rejects the invocation
(usage error, exit status 2) when a `required=True` flag is missing, applies
the `"English"` default for `-l`, and leaves every other omitted optional
flag at its default `None`. -/
def getArgs (source destination language author category words : Option String)
    (tags : Option (List String)) : Except String Args :=
  match source, destination, author with
  | some s, some d, some a =>
    Except.ok ⟨s, d, language.getD "English", a, category, words, tags⟩
  | _, _, _ =>
    Except.error "the following arguments are required: -s/--source, -d/--destination, -a/--author"

/-- A network interaction performed by `main`: the transcript download
(`YouTubeTranscriptApi.get_transcript`) and the chat-completion request
(`client.chat.completions.create` with the rendered prompt). -/
inductive NetEvent where
  | transcriptFetch (videoId : String)
  | completionRequest (prompt : String)
deriving Repr, DecidableEq

/-- How a run of `main` terminates abnormally: a `KnownError` raised by the
script itself, or the `TypeError` Python raises at `args.tags + [AI_TAG]`
when `args.tags` is `None`. -/
inductive PyErr where
  | known (msg : String)
  | typeError (msg : String)
deriving Repr, DecidableEq

/-- The external world of a single run: the optional config-file contents and
`OPENAI_API_KEY` value, the transcript service (caption records per video
ID), the chunk deltas of the streamed completion (`None` for a chunk whose
`delta.content` is absent), and today's formatted date. -/
structure Ext where
  confFile : Option String
  envKey : Option String
  fetch : String → List Caption
  chunks : List (Option String)
  date : String

/-- The destination-file content produced by the streaming loop at lines
176-181: for each chunk, `data = chunk.choices[0].delta.content or ""` is
appended to the file (opened in write mode, so starting empty). -/
def streamContent (chunks : List (Option String)) : String :=
  chunks.foldl (fun acc c => acc ++ c.getD "") ""

/-- The body of `main` after argument parsing, as a function of the parsed `Args` and the
external world: returns the ordered trace of network events together with
either the final destination-file content or the error that terminated the
run.  The statement order follows the script: `get_video_id`, transcript
fetch, `get_api_key`, evaluation of the `template.render` arguments
(where `args.tags + [AI_TAG]` raises `TypeError` when tags is `None`),
the streamed completion request, and the write loop. -/
def mainRun (a : Args) (x : Ext) : List NetEvent × Except PyErr String :=
  match getVideoId a.source with
  | Except.error m => ([], Except.error (PyErr.known m))
  | Except.ok vid =>
    let transcript := transcriptOf (x.fetch vid)
    match getApiKey x.confFile x.envKey with
    | Except.error m => ([NetEvent.transcriptFetch vid], Except.error (PyErr.known m))
    | Except.ok _key =>
      match a.tags with
      | none =>
        ([NetEvent.transcriptFetch vid],
         Except.error (PyErr.typeError "unsupported operand type(s) for +: 'NoneType' and 'list'"))
      | some ts =>
        let prompt := renderTemplate transcript x.date a.author a.category
          (renderedTags ts) a.language vid a.words
        ([NetEvent.transcriptFetch vid, NetEvent.completionRequest prompt],
         Except.ok (streamContent x.chunks))

/-! ## Spec-side definitions (for refinement claims) -/

/-- Modelled from the spec: joining a list of strings with a separator,
"in the original order of the sequence" (used to compare the script's
`sep.join` against the spec's description of transcript joining and tag
rendering). -/
def specJoin (sep : String) : List String → String
  | [] => ""
  | [x] => x
  | x :: y :: rest => x ++ sep ++ specJoin sep (y :: rest)

/-- Modelled from the spec: the field of a query string "contains the
parameter v" exactly when `parse_qsl` turns it into a pair named `v`. -/
def fieldIsV (f : List Char) : Bool :=
  match fieldToPair f with
  | some p => p.1 == ['v']
  | none => false

/-- Joining a list of query-string fields with a separator character
(the inverse direction of `pySplit`). -/
def joinSep (sep : Char) : List (List Char) → List Char
  | [] => []
  | [f] => f
  | f :: g :: rest => f ++ sep :: joinSep sep (g :: rest)

/-- Boolean check that `pat` is a prefix of `l`. -/
def isPrefixOfB : List Char → List Char → Bool
  | [], _ => true
  | _ :: _, [] => false
  | a :: as, b :: bs => a == b && isPrefixOfB as bs

/-- Boolean check that `pat` occurs as a contiguous substring of `l`. -/
def hasInfixB (pat : List Char) : List Char → Bool
  | [] => isPrefixOfB pat []
  | c :: rest => isPrefixOfB pat (c :: rest) || hasInfixB pat rest

/-! ## Concrete runs used as counterexamples and witnesses -/

/-- A parsed command line with a well-formed source URL and tags supplied. -/
def cArgs1 : Args :=
  ⟨"https://www.youtube.com/watch?v=abc", "out.md", "English", "Jane", none, none, some ["tech"]⟩

/-- An external world with no config file and no environment variable. -/
def cExtNoKey : Ext :=
  ⟨none, none, fun _ => [⟨"Hello"⟩, ⟨"world"⟩], [some "Hi"], "07 Jun, 2024"⟩

/-- An external world whose config file holds a key, streaming four chunks
(one with an absent delta and one with an empty delta). -/
def cExtWithKey : Ext :=
  ⟨some "sk-test\n", none, fun _ => [⟨"Hello"⟩, ⟨"world"⟩],
   [some "He", none, some "", some "llo"], "07 Jun, 2024"⟩

/-- The spec's end-to-end example command line: source
`https://youtu.be/watch?v=XYZ`, author `Jane`, tags `["tech"]`. -/
def exArgs : Args :=
  ⟨"https://youtu.be/watch?v=XYZ", "post.md", "English", "Jane", none, none, some ["tech"]⟩

/-- The spec's end-to-end example world: a stubbed transcript fetch returning
the caption texts `Hello` and `world`. -/
def exExt : Ext :=
  ⟨some "sk-test\n", none, fun _ => [⟨"Hello"⟩, ⟨"world"⟩], [some "post"], "07 Jun, 2024"⟩

/-! ## Helper lemmas -/

theorem foldl_append_shift (sep a b : String) (l : List String) :
    l.foldl (fun acc y => acc ++ sep ++ y) (a ++ b)
      = a ++ l.foldl (fun acc y => acc ++ sep ++ y) b := by
  induction l generalizing b with
  | nil => rfl
  | cons y l ih =>
    simp only [List.foldl_cons]
    have h1 : a ++ b ++ sep ++ y = a ++ (b ++ sep ++ y) := by
      simp [String.append_assoc]
    rw [h1]
    exact ih (b ++ sep ++ y)

theorem pyJoinStr_cons_cons (sep x y : String) (l : List String) :
    pyJoinStr sep (x :: y :: l) = x ++ sep ++ pyJoinStr sep (y :: l) := by
  simp only [pyJoinStr, List.foldl_cons]
  exact foldl_append_shift sep (x ++ sep) y l

theorem pyJoinStr_eq_specJoin (sep : String) (l : List String) :
    pyJoinStr sep l = specJoin sep l := by
  induction l with
  | nil => rfl
  | cons x l ih =>
    cases l with
    | nil => rfl
    | cons y t =>
      rw [pyJoinStr_cons_cons, ih]
      rfl

theorem isOk_exists {e : Except String String} (h : e.isOk = true) :
    ∃ k, e = Except.ok k := by
  cases e with
  | error m => simp [Except.isOk, Except.toBool] at h
  | ok k => exact ⟨k, rfl⟩

/-! ## Claim theorems -/

/-- Claim C3: the rendered tags string is the user-supplied tags followed by
the constant tag `ai-generated` as the last element, joined with `", "` and
preserving the input order: it equals the spec-side join of `ts ++ [AI_TAG]`,
the empty tag list renders as just `ai-generated`, and each user tag is
emitted in order, separated by `", "`, in front of the rest. -/
theorem rendered_tags_appends_ai_tag :
    (∀ ts : List String, renderedTags ts = specJoin ", " (ts ++ [AI_TAG]))
    ∧ renderedTags [] = "ai-generated"
    ∧ ∀ (t : String) (ts : List String),
        renderedTags (t :: ts) = t ++ ", " ++ renderedTags ts := by
  refine ⟨fun ts => pyJoinStr_eq_specJoin ", " (ts ++ [AI_TAG]), rfl, fun t ts => ?_⟩
  cases ts with
  | nil => rfl
  | cons u us =>
    show pyJoinStr ", " (t :: u :: (us ++ [AI_TAG])) = _
    rw [pyJoinStr_cons_cons]
    rfl

/-- Claim C7: whenever the config file exists, credential resolution returns
its whitespace-stripped contents for every state of the environment variable
(so the environment variable is never consulted); in particular trailing
newlines are removed. -/
theorem config_file_takes_precedence :
    (∀ (contents : String) (envKey : Option String),
        getApiKey (some contents) envKey = Except.ok (pyStrip contents))
    ∧ getApiKey (some "  sk-test-123\n\n") none = Except.ok "sk-test-123"
    ∧ getApiKey (some "  sk-test-123\n\n") (some "other-key") = Except.ok "sk-test-123" :=
  ⟨fun _ _ => rfl, rfl, rfl⟩

/-- Claim C8: with no config file and no `OPENAI_API_KEY`, credential
resolution fails with the `KnownError "Missing OpenAI key."` (the
configuration error) and returns no key; with only the environment variable
set it returns its value verbatim. -/
theorem credential_fallback_and_failure :
    getApiKey none none = Except.error "Missing OpenAI key."
    ∧ ∀ v : String, getApiKey none (some v) = Except.ok v :=
  ⟨rfl, fun _ => rfl⟩

/-- Claim C2: on every run that completes, the destination-file content is
the concatenation of the chunks' text deltas in delivery order, an absent
(`none`) delta contributing the empty string; inserting an empty-string or
absent delta anywhere in the stream leaves the file content unchanged. -/
theorem file_content_eq_delta_concat :
    (∀ (a : Args) (x : Ext) (evs : List NetEvent) (c : String),
        mainRun a x = (evs, Except.ok c) →
        c = String.join (x.chunks.map fun d => d.getD ""))
    ∧ (∀ pre post : List (Option String),
        streamContent (pre ++ some "" :: post) = streamContent (pre ++ post))
    ∧ (∀ pre post : List (Option String),
        streamContent (pre ++ none :: post) = streamContent (pre ++ post)) := by
  have hjoin : ∀ chunks : List (Option String),
      streamContent chunks = String.join (chunks.map fun d => d.getD "") := by
    intro chunks
    simp [streamContent, String.join, List.foldl_map]
  refine ⟨?_, ?_, ?_⟩
  · intro a x evs c h
    unfold mainRun at h
    cases hv : getVideoId a.source with
    | error m => rw [hv] at h; simp at h
    | ok vid =>
      rw [hv] at h
      cases hk : getApiKey x.confFile x.envKey with
      | error m => rw [hk] at h; simp at h
      | ok key =>
        rw [hk] at h
        cases hts : a.tags with
        | none => rw [hts] at h; simp at h
        | some ts =>
          rw [hts] at h
          simp only [Prod.mk.injEq, Except.ok.injEq] at h
          rw [← h.2, hjoin]
  · intro pre post
    simp [streamContent, List.foldl_append, String.append_empty]
  · intro pre post
    simp [streamContent, List.foldl_append, String.append_empty]

/-- Claim C2, witness: a concrete completed run whose streamed chunks are
`[some "He", none, some "", some "llo"]` writes exactly `"Hello"`, the
concatenation of the deltas in delivery order. -/
theorem file_content_eq_delta_concat_witness :
    mainRun cArgs1 cExtWithKey = ((mainRun cArgs1 cExtWithKey).1, Except.ok "Hello")
    ∧ "Hello" = String.join (cExtWithKey.chunks.map fun d => d.getD "") :=
  ⟨rfl, file_content_eq_delta_concat.1 cArgs1 cExtWithKey (mainRun cArgs1 cExtWithKey).1 "Hello" rfl⟩

/-- Claim C9: the transcript string handed to the prompt renderer is the
caption records' text fields joined with newline characters in the original
order: `transcriptOf` agrees with the spec-side newline join, the prompt sent
with the completion request on every successful run is rendered from that
join, and in the spec's end-to-end example the rendered prompt contains
`Hello\nworld` and the literal ID `XYZ`. -/
theorem transcript_newline_join :
    (∀ captions : List Caption,
        transcriptOf captions = specJoin "\n" (captions.map Caption.text))
    ∧ (∀ (a : Args) (x : Ext) (ts : List String) (vid : String),
        a.tags = some ts →
        getVideoId a.source = Except.ok vid →
        (getApiKey x.confFile x.envKey).isOk = true →
        (mainRun a x).1 = [NetEvent.transcriptFetch vid,
          NetEvent.completionRequest (renderTemplate
            (specJoin "\n" ((x.fetch vid).map Caption.text)) x.date a.author a.category
            (renderedTags ts) a.language vid a.words)])
    ∧ hasInfixB "Hello\nworld".toList (renderTemplate (specJoin "\n" ["Hello", "world"])
        "07 Jun, 2024" "Jane" none (renderedTags ["tech"]) "English" "XYZ" none).toList = true
    ∧ hasInfixB "XYZ".toList (renderTemplate (specJoin "\n" ["Hello", "world"])
        "07 Jun, 2024" "Jane" none (renderedTags ["tech"]) "English" "XYZ" none).toList = true := by
  refine ⟨fun captions => pyJoinStr_eq_specJoin "\n" (captions.map Caption.text), ?_, rfl, rfl⟩
  intro a x ts vid hts hv hkey
  obtain ⟨k, hk⟩ := isOk_exists hkey
  unfold mainRun
  rw [hv, hk, hts]
  simp only [transcriptOf]
  rw [pyJoinStr_eq_specJoin]

/-- Claim C9, witness: the spec's end-to-end example (source
`https://youtu.be/watch?v=XYZ`, stubbed captions `Hello` and `world`)
satisfies the hypotheses, and its completion request carries the prompt
rendered from the newline join of the caption texts. -/
theorem transcript_newline_join_witness :
    exArgs.tags = some ["tech"]
    ∧ getVideoId exArgs.source = Except.ok "XYZ"
    ∧ (getApiKey exExt.confFile exExt.envKey).isOk = true
    ∧ (mainRun exArgs exExt).1 = [NetEvent.transcriptFetch "XYZ",
        NetEvent.completionRequest (renderTemplate
          (specJoin "\n" ((exExt.fetch "XYZ").map Caption.text)) exExt.date exArgs.author
          exArgs.category (renderedTags ["tech"]) exArgs.language "XYZ" exArgs.words)] :=
  ⟨rfl, rfl, rfl,
   transcript_newline_join.2.1 exArgs exExt ["tech"] "XYZ" rfl rfl rfl⟩

/-- Claim C6: for every assignment of the other template variables, rendering
with `category = none` yields exactly the text before the category slot
followed by the text after it (the slot contributes nothing, and neither
fixed part contains the text `category:`), while rendering with a non-empty
category value yields the same two parts with the line
`category: <value>` in between. -/
theorem category_line_present_iff_category :
    (∀ (transcript date author tags language videoId : String) (words : Option String),
        renderTemplate transcript date author none tags language videoId words
          = tplBeforeCategory transcript date author
            ++ tplAfterCategory tags language videoId words)
    ∧ (∀ (transcript date author tags language videoId : String) (words : Option String)
        (c : String), c ≠ "" →
        renderTemplate transcript date author (some c) tags language videoId words
          = tplBeforeCategory transcript date author
            ++ ("category: " ++ c ++ "\n")
            ++ tplAfterCategory tags language videoId words)
    ∧ hasInfixB "category:".toList (tplBeforeCategory "" "" "").toList = false
    ∧ hasInfixB "category:".toList (tplAfterCategory "" "" "" none).toList = false := by
  refine ⟨?_, ?_, rfl, rfl⟩
  · intro t d a tg l v w
    simp only [renderTemplate, tplBeforeCategory, tplAfterCategory, String.append_assoc,
      String.empty_append]
  · intro t d a tg l v w c hc
    simp only [renderTemplate, tplBeforeCategory, tplAfterCategory]
    rw [if_neg hc]
    simp only [String.append_assoc]

/-- Claim C6, witness: with the non-empty category value `tech` and concrete
values for the other variables, the rendered prompt is the fixed parts with
the line `category: tech` in between. -/
theorem category_line_present_iff_category_witness :
    ("tech" : String) ≠ ""
    ∧ renderTemplate "T" "D" "A" (some "tech") "tg" "L" "V" none
      = tplBeforeCategory "T" "D" "A"
        ++ ("category: " ++ "tech" ++ "\n")
        ++ tplAfterCategory "tg" "L" "V" none :=
  ⟨by decide,
   category_line_present_iff_category.2.1 "T" "D" "A" "tg" "L" "V" none "tech" (by decide)⟩

theorem splitOnce_of_not_mem (sep : Char) (l : List Char) (h : sep ∉ l) :
    splitOnce sep l = none := by
  induction l with
  | nil => rfl
  | cons c rest ih =>
    have hc : ¬(c = sep) := fun e => h (e ▸ List.mem_cons_self c rest)
    simp only [splitOnce]
    rw [if_neg hc, ih fun hm => h (List.mem_cons_of_mem c hm)]

theorem splitOnce_append (sep : Char) (a b : List Char) (h : sep ∉ a) :
    splitOnce sep (a ++ sep :: b) = some (a, b) := by
  induction a with
  | nil => simp [splitOnce]
  | cons c rest ih =>
    have hc : ¬(c = sep) := fun e => h (e ▸ List.mem_cons_self c rest)
    simp only [List.cons_append, splitOnce, List.append_eq]
    rw [if_neg hc, ih fun hm => h (List.mem_cons_of_mem c hm)]

theorem pySplit_of_not_mem (sep : Char) (l : List Char) (h : sep ∉ l) :
    pySplit sep l = [l] := by
  induction l with
  | nil => rfl
  | cons c rest ih =>
    have hc : ¬(c = sep) := fun e => h (e ▸ List.mem_cons_self c rest)
    simp only [pySplit]
    rw [if_neg hc, ih fun hm => h (List.mem_cons_of_mem c hm)]

theorem pySplit_field_append (sep : Char) (f rest : List Char) (h : sep ∉ f) :
    pySplit sep (f ++ sep :: rest) = f :: pySplit sep rest := by
  induction f with
  | nil =>
    simp [pySplit]
  | cons c cs ih =>
    have hc : ¬(c = sep) := fun e => h (e ▸ List.mem_cons_self c cs)
    simp only [List.cons_append, pySplit, List.append_eq]
    rw [if_neg hc, ih fun hm => h (List.mem_cons_of_mem c hm)]

theorem pySplit_joinSep (sep : Char) (fields : List (List Char)) (hne : fields ≠ [])
    (h : ∀ f ∈ fields, sep ∉ f) : pySplit sep (joinSep sep fields) = fields := by
  induction fields with
  | nil => exact absurd rfl hne
  | cons f fs ih =>
    cases fs with
    | nil => exact pySplit_of_not_mem sep f (h f (List.mem_cons_self f []))
    | cons g rest =>
      show pySplit sep (f ++ sep :: joinSep sep (g :: rest)) = f :: g :: rest
      rw [pySplit_field_append sep f _ (h f (List.mem_cons_self f (g :: rest)))]
      rw [ih (List.cons_ne_nil g rest) fun x hx => h x (List.mem_cons_of_mem f hx)]

theorem not_mem_joinSep (sep c : Char) (fields : List (List Char)) (hc : c ≠ sep)
    (h : ∀ f ∈ fields, c ∉ f) : c ∉ joinSep sep fields := by
  induction fields with
  | nil => simp [joinSep]
  | cons f fs ih =>
    cases fs with
    | nil => exact h f (List.mem_cons_self f [])
    | cons g rest =>
      show c ∉ f ++ sep :: joinSep sep (g :: rest)
      intro hm
      rcases List.mem_append.mp hm with hf | hs
      · exact h f (List.mem_cons_self f (g :: rest)) hf
      · rcases List.mem_cons.mp hs with he | ht
        · exact hc he
        · exact ih (fun x hx => h x (List.mem_cons_of_mem f hx)) ht

theorem urlQueryChars_append (base q : List Char)
    (hb1 : '#' ∉ base) (hb2 : '?' ∉ base) (hq : '#' ∉ q) :
    urlQueryChars (base ++ '?' :: q) = q := by
  have hno : '#' ∉ base ++ '?' :: q := by
    intro hm
    rcases List.mem_append.mp hm with hf | hs
    · exact hb1 hf
    · rcases List.mem_cons.mp hs with he | ht
      · exact absurd he (by decide)
      · exact hq ht
  simp only [urlQueryChars]
  rw [splitOnce_of_not_mem '#' _ hno]
  rw [splitOnce_append '?' base q hb2]

/-- Claim C4: for every URL assembled from a base (no `?`, no `#`), any
query-string fields before and after the field `v=abc123` (fields free of the
`&` and `#` separators, none of the earlier ones parsing as a `v` parameter),
video-ID extraction returns exactly `"abc123"`, regardless of which other
query parameters are present or in what order. -/
theorem video_id_extraction_first_v_value :
    ∀ (base : List Char) (pre post : List (List Char)),
      '#' ∉ base → '?' ∉ base →
      (∀ f ∈ pre ++ "v=abc123".toList :: post, '&' ∉ f ∧ '#' ∉ f) →
      (∀ f ∈ pre, fieldIsV f = false) →
      getVideoId (String.mk (base ++ '?' :: joinSep '&' (pre ++ "v=abc123".toList :: post)))
        = Except.ok "abc123" := by
  intro base pre post hb1 hb2 hfields hpre
  have hqH : '#' ∉ joinSep '&' (pre ++ "v=abc123".toList :: post) :=
    not_mem_joinSep '&' '#' _ (by decide) fun f hf => (hfields f hf).2
  have step1 : urlQueryChars (String.mk
      (base ++ '?' :: joinSep '&' (pre ++ "v=abc123".toList :: post))).toList
      = joinSep '&' (pre ++ "v=abc123".toList :: post) :=
    urlQueryChars_append base _ hb1 hb2 hqH
  have step2 : pySplit '&' (joinSep '&' (pre ++ "v=abc123".toList :: post))
      = pre ++ "v=abc123".toList :: post :=
    pySplit_joinSep '&' _ (by simp) fun f hf => (hfields f hf).1
  have hprenil : pre.filterMap (fun f => (fieldToPair f).bind vFieldValue) = [] := by
    refine List.filterMap_eq_nil_iff.mpr fun f hf => ?_
    have hv := hpre f hf
    cases hp : fieldToPair f with
    | none => simp [hp]
    | some p =>
      rw [fieldIsV, hp] at hv
      have hne : p.1 ≠ ['v'] := by simpa using hv
      simp [hp, vFieldValue, hne]
  unfold getVideoId parseQsl
  rw [step1, step2, List.filterMap_filterMap, List.filterMap_append]
  rw [hprenil]
  rfl

/-- Claim C4, witness: the URL
`https://www.youtube.com/watch?x=1&v=abc123&y=2` (other parameters around the
`v` field) satisfies the hypotheses and extraction returns `"abc123"`. -/
theorem video_id_extraction_first_v_value_witness :
    '#' ∉ "https://www.youtube.com/watch".toList
    ∧ '?' ∉ "https://www.youtube.com/watch".toList
    ∧ (∀ f ∈ ["x=1".toList] ++ "v=abc123".toList :: ["y=2".toList], '&' ∉ f ∧ '#' ∉ f)
    ∧ (∀ f ∈ ["x=1".toList], fieldIsV f = false)
    ∧ getVideoId (String.mk ("https://www.youtube.com/watch".toList
        ++ '?' :: joinSep '&' (["x=1".toList] ++ "v=abc123".toList :: ["y=2".toList])))
      = Except.ok "abc123" :=
  ⟨by decide, by decide, by decide, by decide,
   video_id_extraction_first_v_value "https://www.youtube.com/watch".toList
     ["x=1".toList] ["y=2".toList] (by decide) (by decide) (by decide) (by decide)⟩

/-- Claim C5: for every URL string whose parsed query string carries no `v`
parameter, video-ID extraction fails with the `KnownError` whose descriptive
message names the missing `v` query-string variable, and never returns a
value. -/
theorem video_id_extraction_missing_v_fails :
    ∀ url : String,
      (∀ p ∈ parseQsl (urlQueryChars url.toList), p.1 ≠ ['v']) →
      getVideoId url
        = Except.error "Missing `v` querystring variable in YouTube video URL." := by
  intro url h
  have hnil : (parseQsl (urlQueryChars url.toList)).filterMap vFieldValue = [] :=
    List.filterMap_eq_nil_iff.mpr fun p hp => by simp [vFieldValue, h p hp]
  unfold getVideoId
  rw [hnil]

/-- Claim C5, witness: the URL `https://www.youtube.com/watch?x=1&y=2` has a
query string without a `v` parameter and extraction fails with the
descriptive error. -/
theorem video_id_extraction_missing_v_fails_witness :
    (∀ p ∈ parseQsl (urlQueryChars "https://www.youtube.com/watch?x=1&y=2".toList),
        p.1 ≠ ['v'])
    ∧ getVideoId "https://www.youtube.com/watch?x=1&y=2"
      = Except.error "Missing `v` querystring variable in YouTube video URL." :=
  ⟨by decide, video_id_extraction_missing_v_fails "https://www.youtube.com/watch?x=1&y=2" (by decide)⟩

/-- Claim C1 (amended): when no API key is resolvable (no config file, no
environment variable), every run fails with a `KnownError` before the
completion request, but the transcript fetch is the script's first network
call and happens before credential resolution, so it is still attempted
whenever the source URL is valid. -/
theorem no_key_fails_before_completion_request :
    ∀ (a : Args) (x : Ext), x.confFile = none → x.envKey = none →
      (∃ m, (mainRun a x).2 = Except.error (PyErr.known m))
      ∧ ∀ p, NetEvent.completionRequest p ∉ (mainRun a x).1 := by
  intro a x h1 h2
  unfold mainRun
  rw [h1, h2]
  cases hv : getVideoId a.source with
  | error m => exact ⟨⟨m, rfl⟩, fun p => by simp⟩
  | ok vid =>
    have hkey : getApiKey none none = Except.error "Missing OpenAI key." := rfl
    rw [hkey]
    exact ⟨⟨"Missing OpenAI key.", rfl⟩, fun p => by simp⟩

/-- Claim C1, counterexample: a concrete run with a valid source URL and no
resolvable API key performs the transcript fetch (the event appears in the
trace) and only then fails with the missing-key error, refuting that the
transcript fetch is never attempted when credential resolution would fail. -/
theorem transcript_fetch_attempted_without_key :
    mainRun cArgs1 cExtNoKey
      = ([NetEvent.transcriptFetch "abc"], Except.error (PyErr.known "Missing OpenAI key."))
    ∧ getApiKey cExtNoKey.confFile cExtNoKey.envKey = Except.error "Missing OpenAI key." :=
  ⟨rfl, rfl⟩

/-- Claim C1 (amended), witness: the concrete key-less run fails with a
`KnownError` and its trace contains no completion request. -/
theorem no_key_fails_before_completion_request_witness :
    cExtNoKey.confFile = none ∧ cExtNoKey.envKey = none
    ∧ ((∃ m, (mainRun cArgs1 cExtNoKey).2 = Except.error (PyErr.known m))
       ∧ ∀ p, NetEvent.completionRequest p ∉ (mainRun cArgs1 cExtNoKey).1) :=
  ⟨rfl, rfl, no_key_fails_before_completion_request cArgs1 cExtNoKey rfl rfl⟩

/-- Claim C10: omitting the `-t` tags flag is accepted by argument parsing
(tags is not a required flag, its parsed value defaults to `none`), and a run
with a valid source URL and a resolvable API key then fails with the
unhandled `TypeError` raised by `args.tags + [AI_TAG]`, not with the
descriptive `KnownError` used for the documented input errors. -/
theorem omitted_tags_type_error :
    ∀ (s d a : String) (x : Ext) (vid : String),
      getVideoId s = Except.ok vid →
      (getApiKey x.confFile x.envKey).isOk = true →
      getArgs (some s) (some d) none (some a) none none none
        = Except.ok ⟨s, d, "English", a, none, none, none⟩
      ∧ (mainRun ⟨s, d, "English", a, none, none, none⟩ x).2
        = Except.error (PyErr.typeError
            "unsupported operand type(s) for +: 'NoneType' and 'list'") := by
  intro s d a x vid hv hk
  obtain ⟨k, hk2⟩ := isOk_exists hk
  refine ⟨rfl, ?_⟩
  simp only [mainRun, hv, hk2]

/-- Claim C10, witness: a concrete invocation without `-t` parses
successfully and the run ends in the `TypeError`. -/
theorem omitted_tags_type_error_witness :
    getVideoId "https://www.youtube.com/watch?v=abc" = Except.ok "abc"
    ∧ (getApiKey cExtWithKey.confFile cExtWithKey.envKey).isOk = true
    ∧ (getArgs (some "https://www.youtube.com/watch?v=abc") (some "out.md") none
          (some "Jane") none none none
        = Except.ok ⟨"https://www.youtube.com/watch?v=abc", "out.md", "English", "Jane",
            none, none, none⟩
       ∧ (mainRun ⟨"https://www.youtube.com/watch?v=abc", "out.md", "English", "Jane",
            none, none, none⟩ cExtWithKey).2
        = Except.error (PyErr.typeError
            "unsupported operand type(s) for +: 'NoneType' and 'list'")) :=
  ⟨rfl, rfl,
   omitted_tags_type_error "https://www.youtube.com/watch?v=abc" "out.md" "Jane"
     cExtWithKey "abc" rfl rfl⟩

end YtInsight
